import Mathlib

/-! Verification of the JSON API Analyzer core.

A shallow embedding of the two core components of the `api-analyzer`
application (`src/App.tsx`): the request/response analysis pipeline
(`analyze`) and the recursive JSON tree renderer (`TreeNode` / `Value`),
together with theorems settling the specification claims about them.

Platform primitives used by the source (the JS `JSON.parse`, `Number`
string conversion, `TextEncoder`, `AbortController`) are modelled
explicitly: `JSON.parse` on the integer fragment of JSON numbers,
`Number` string conversion on the decimal-integer fragment, UTF-8 byte
length via `String.utf8ByteSize`.
-/

/-- JSON values as produced by `JSON.parse`.  Numbers are modelled on the
integer fragment of JSON (the source delegates to the platform parser;
none of the claims depend on fractional numeric values). -/
inductive Json where
  | null : Json
  | bool (b : Bool) : Json
  | num (n : Int) : Json
  | str (s : String) : Json
  | arr (elts : List Json) : Json
  | obj (fields : List (String × Json)) : Json
deriving Repr

/-! ## Header collection

`analyze` builds `headers` with `resp.headers.forEach((v, k) =>
(headers[k.toLowerCase()] = v))`: keys are lower-cased and a duplicate
key overwrites the earlier value (last write wins). -/

/-- The collected header mapping: association list from lower-cased
header name to value. -/
abbrev Headers := List (String × String)

/-- JS `toLowerCase()` (character-wise, as `String.toLower` performs
it; spelled out over the character list so that it evaluates inside
the kernel). -/
def jsToLower (s : String) : String :=
  String.mk (s.data.map Char.toLower)

/-- JS object property assignment `m[k] = v`: replace an existing
binding in place, else append. -/
def setHeader : List (String × String) → String → String → List (String × String)
  | [], k, v => [(k, v)]
  | (k0, v0) :: rest, k, v =>
    if k0 = k then (k0, v) :: rest else (k0, v0) :: setHeader rest k v

/-- Collection step `resp.headers.forEach((v, k) => (headers[k.toLowerCase()] = v))`. -/
def collectHeaders (raw : List (String × String)) : Headers :=
  raw.foldl (fun acc kv => setHeader acc (jsToLower kv.1) kv.2) []

/-- Lookup `headers[k]` on the collected mapping (`none` = `undefined`). -/
def getHeader (hs : Headers) (k : String) : Option String :=
  List.lookup k hs

/-! ## String utilities (JS `String.prototype.includes`) -/

/-- Whether `needle` is an initial segment of `hay`. -/
def startsWithL : List Char → List Char → Bool
  | [], _ => true
  | _ :: _, [] => false
  | n :: ns, h :: hs => n == h && startsWithL ns hs

/-- Whether `needle` occurs contiguously inside `hay`. -/
def containsSub (needle : List Char) : List Char → Bool
  | [] => startsWithL needle []
  | c :: rest => startsWithL needle (c :: rest) || containsSub needle rest

/-- JS `hay.includes(pat)`. -/
def strContains (hay pat : String) : Bool :=
  containsSub pat.data hay.data

/-! ## JS `Number(x)` conversion

`analyze` computes `Number(headers["content-length"])`.  `Number` of
`undefined` is `NaN`; `Number` of a string trims whitespace, maps the
empty remainder to `0`, and otherwise parses a numeric literal.  We
model the decimal-integer fragment; `none` stands for `NaN`. -/

/-- JSON/JS whitespace. -/
def isWs (c : Char) : Bool :=
  c == ' ' || c == '\t' || c == '\n' || c == '\r'

/-- Numeric value of a list of decimal digit characters. -/
def digitsVal (ds : List Char) : Nat :=
  ds.foldl (fun a c => a * 10 + (c.toNat - 48)) 0

/-- JS `Number(s)` for a string, on the decimal-integer fragment:
whitespace-trimmed, empty string gives `0`, optionally signed digit
string gives its value, anything else gives `NaN` (`none`). -/
def jsStringToNumber (s : String) : Option Int :=
  let t := (s.data.dropWhile isWs).reverse.dropWhile isWs |>.reverse
  match t with
  | [] => some 0
  | '-' :: ds => if ds ≠ [] ∧ ds.all Char.isDigit then some (-(digitsVal ds : Int)) else none
  | ds => if ds.all Char.isDigit then some ((digitsVal ds : Int)) else none

/-- JS `Number(x)` where `x : string | undefined`;
`Number(undefined) = NaN = none`. -/
def jsNumber : Option String → Option Int
  | none => none
  | some s => jsStringToNumber s

/-! ## `JSON.parse` model

A recursive-descent parser for JSON (strings with escapes, the integer
fragment of numbers, arrays, objects, `true`/`false`/`null`), returning
either the parsed value or a parse-error message, as
`JSON.parse` wrapped in `try`/`catch` does in the source. -/

/-- Skip JSON whitespace. -/
def skipWs (cs : List Char) : List Char :=
  cs.dropWhile isWs

/-- The opening-brace character (written via its code point to keep
string-literal scanning simple). -/
def lbrace : Char := Char.ofNat 123

/-- The closing-brace character. -/
def rbrace : Char := Char.ofNat 125

/-- Hexadecimal digit value. -/
def hexVal (c : Char) : Option Nat :=
  if '0' ≤ c ∧ c ≤ '9' then some (c.toNat - 48)
  else if 'a' ≤ c ∧ c ≤ 'f' then some (c.toNat - 87)
  else if 'A' ≤ c ∧ c ≤ 'F' then some (c.toNat - 55)
  else none

/-- Single-character JSON string escapes. -/
def escChar : Char → Option Char
  | '"' => some '"'
  | '\\' => some '\\'
  | '/' => some '/'
  | 'b' => some '\x08'
  | 'f' => some '\x0c'
  | 'n' => some '\n'
  | 'r' => some '\r'
  | 't' => some '\t'
  | _ => none

/-- Parse the body of a JSON string literal (after the opening quote)
up to and including the closing quote; returns the decoded content and
the remaining input. -/
def parseStrBody : List Char → Option (List Char × List Char)
  | [] => none
  | '"' :: rest => some ([], rest)
  | '\\' :: 'u' :: a :: b :: c2 :: d :: rest3 =>
    match hexVal a, hexVal b, hexVal c2, hexVal d with
    | some x, some y, some z, some w =>
      (parseStrBody rest3).map fun p =>
        (Char.ofNat (((x * 16 + y) * 16 + z) * 16 + w) :: p.1, p.2)
    | _, _, _, _ => none
  | '\\' :: e :: rest2 =>
    match escChar e with
    | some ec => (parseStrBody rest2).map fun p => (ec :: p.1, p.2)
    | none => none
  | '\\' :: [] => none
  | c :: rest =>
    if c.toNat < 32 then none
    else (parseStrBody rest).map fun p => (c :: p.1, p.2)

/-- Strip a literal prefix. -/
def stripLit : List Char → List Char → Option (List Char)
  | [], cs => some cs
  | _ :: _, [] => none
  | l :: ls, c :: cs => if l = c then stripLit ls cs else none

mutual

/-- Parse one JSON value; `fuel` bounds the recursion depth (the
caller supplies more fuel than any input of that length can use). -/
def parseVal : Nat → List Char → Except String (Json × List Char)
  | 0, _ => .error "JSON nesting too deep"
  | fuel + 1, cs =>
    match skipWs cs with
    | [] => .error "Unexpected end of JSON input"
    | c :: rest =>
      if c = '"' then
        match parseStrBody rest with
        | some (content, rest2) => .ok (.str (String.mk content), rest2)
        | none => .error "Unterminated string in JSON"
      else if c = 't' then
        match stripLit ['r', 'u', 'e'] rest with
        | some rest2 => .ok (.bool true, rest2)
        | none => .error "Unexpected token t in JSON"
      else if c = 'f' then
        match stripLit ['a', 'l', 's', 'e'] rest with
        | some rest2 => .ok (.bool false, rest2)
        | none => .error "Unexpected token f in JSON"
      else if c = 'n' then
        match stripLit ['u', 'l', 'l'] rest with
        | some rest2 => .ok (.null, rest2)
        | none => .error "Unexpected token n in JSON"
      else if c = '[' then
        match skipWs rest with
        | ']' :: rest2 => .ok (.arr [], rest2)
        | _ => do
          let (vs, rest2) ← parseItems fuel rest
          .ok (.arr vs, rest2)
      else if c = lbrace then
        match skipWs rest with
        | c2 :: rest2 =>
          if c2 = rbrace then .ok (.obj [], rest2)
          else do
            let (fs, rest3) ← parseFields fuel rest
            .ok (.obj fs, rest3)
        | [] => do
          let (fs, rest3) ← parseFields fuel rest
          .ok (.obj fs, rest3)
      else if c = '-' || c.isDigit then
        let cs2 := if c = '-' then rest else c :: rest
        let ds := cs2.takeWhile Char.isDigit
        if ds = [] then .error "Unexpected token in JSON number"
        else
          let v : Int := digitsVal ds
          .ok (.num (if c = '-' then -v else v), cs2.dropWhile Char.isDigit)
      else .error "Unexpected token in JSON"

/-- Parse the comma-separated elements of a non-empty array, up to and
including the closing bracket. -/
def parseItems : Nat → List Char → Except String (List Json × List Char)
  | 0, _ => .error "JSON nesting too deep"
  | fuel + 1, cs => do
    let (v, rest) ← parseVal fuel cs
    match skipWs rest with
    | ',' :: rest2 => do
      let (vs, rest3) ← parseItems fuel rest2
      .ok (v :: vs, rest3)
    | ']' :: rest2 => .ok ([v], rest2)
    | _ => .error "Expected comma or closing bracket in JSON"

/-- Parse the comma-separated members of a non-empty object, up to and
including the closing brace. -/
def parseFields : Nat → List Char → Except String (List (String × Json) × List Char)
  | 0, _ => .error "JSON nesting too deep"
  | fuel + 1, cs =>
    match skipWs cs with
    | '"' :: rest =>
      match parseStrBody rest with
      | some (key, rest2) =>
        match skipWs rest2 with
        | ':' :: rest3 => do
          let (v, rest4) ← parseVal fuel rest3
          match skipWs rest4 with
          | ',' :: rest5 => do
            let (fs, rest6) ← parseFields fuel rest5
            .ok ((String.mk key, v) :: fs, rest6)
          | c5 :: rest5 =>
            if c5 = rbrace then .ok ([(String.mk key, v)], rest5)
            else .error "Expected comma or closing brace in JSON"
          | [] => .error "Expected comma or closing brace in JSON"
        | _ => .error "Expected colon in JSON object"
      | none => .error "Unterminated string in JSON"
    | _ => .error "Expected property name in JSON object"

end

/-- The model of `JSON.parse(s)`: parse one value surrounded by
optional whitespace, requiring the whole input to be consumed. -/
def jsonParse (s : String) : Except String Json :=
  match parseVal (2 * s.data.length + 2) s.data with
  | .ok (v, rest) =>
    match skipWs rest with
    | [] => .ok v
    | _ => .error "Unexpected non-whitespace character after JSON data"
  | .error m => .error m

/-! ## The Analyzer (`analyze` in `App.tsx`)

The response-processing phase of `analyze` is a pure function of the
received response (status, status text, raw headers, body text)
together with the request parameters; the exception phase (the `catch`
block) is a pure function of the thrown exception.  `analyze` as a
whole is modelled by `analyzeRun` over the network outcome (either a
response or an exception). -/

/-- The `FetchSummary` record from `App.tsx` (timeMs is the elapsed measurement,
passed through unchanged; we carry it as a `Nat`). -/
structure FetchSummary where
  url : String
  method : String
  status : Nat
  statusText : String
  timeMs : Nat
  contentType : Option String
  sizeBytes : Option Int
  date : Option String
deriving Repr

/-- The `AnalyzedResult` type from `App.tsx`: a discriminated union on `ok`. -/
inductive AnalyzedResult where
  | success (summary : FetchSummary) (headers : Headers) (data : Json) (rawText : String)
  | failure (summary : Option FetchSummary) (headers : Option Headers)
      (error : String) (rawText : Option String)
deriving Repr

/-- The response as received from `fetch`: raw status data, header
list (in iteration order), and the body text `resp.text()` would
produce. -/
structure RespInput where
  status : Nat
  statusText : String
  rawHeaders : List (String × String)
  body : String
deriving Repr

/-- The `resp.ok` flag: status in the inclusive range 200-299. -/
def respOk (status : Nat) : Bool :=
  200 ≤ status && status ≤ 299

/-- Body read `const rawText = method === "HEAD" ? "" : await resp.text()`. -/
def computeRawText (method : String) (body : String) : String :=
  if method = "HEAD" then "" else body

/-- The `sizeBytes` computation: prefer `Number(headers["content-length"])`
when it is a number greater than zero, else the UTF-8 byte length of a
non-empty body text, else `null`. -/
def computeSizeBytes (hs : Headers) (rawText : String) : Option Int :=
  match jsNumber (getHeader hs "content-length") with
  | some n =>
    if 0 < n then some n
    else if rawText ≠ "" then some (rawText.utf8ByteSize : Int) else none
  | none =>
    if rawText ≠ "" then some (rawText.utf8ByteSize : Int) else none

/-- The test `headers["content-type"]?.toLowerCase().includes("json")` under JS
truthiness (an absent header is falsy). -/
def ctIndicatesJson (hs : Headers) : Bool :=
  match getHeader hs "content-type" with
  | some ct => strContains (jsToLower ct) "json"
  | none => false

/-- The two-tier body-parsing step of `analyze`: returns the `parsed`
value and the recorded `parseErr` (if any).  `parsed` starts as `null`;
a non-empty body with a JSON-indicating content type is parsed
strictly (recording the parser's message on failure), any other
non-empty body is parsed leniently (falling back to the raw text as
the parsed value). -/
def parseBody (hs : Headers) (rawText : String) : Json × Option String :=
  if rawText ≠ "" && ctIndicatesJson hs then
    match jsonParse rawText with
    | .ok v => (v, none)
    | .error m => (Json.null, some m)
  else if rawText ≠ "" then
    match jsonParse rawText with
    | .ok v => (v, none)
    | .error _ => (Json.str rawText, none)
  else (Json.null, none)

/-- The `FetchSummary` built by `analyze` from the received response. -/
def mkSummary (url method : String) (elapsed : Nat) (resp : RespInput) : FetchSummary :=
  let hs := collectHeaders resp.rawHeaders
  let rawText := computeRawText method resp.body
  { url := url
    method := method
    status := resp.status
    statusText :=
      if resp.statusText = "" then (if respOk resp.status then "OK" else "Error")
      else resp.statusText
    timeMs := elapsed
    contentType := getHeader hs "content-type"
    sizeBytes := computeSizeBytes hs rawText
    date := getHeader hs "date" }

/-- The response-processing phase of `analyze` (everything after the
`fetch` resolves): header collection, body read, size computation,
two-tier parsing, summary construction, and outcome selection in
priority order (non-2xx status, then recorded parse error, then
success). -/
def analyzeResponse (url method : String) (elapsed : Nat) (resp : RespInput) : AnalyzedResult :=
  let hs := collectHeaders resp.rawHeaders
  let rawText := computeRawText method resp.body
  let pr := parseBody hs rawText
  let summary := mkSummary url method elapsed resp
  if !respOk resp.status then
    .failure (some summary) (some hs)
      ("Request failed with status " ++ toString resp.status) (some rawText)
  else
    match pr.2 with
    | some m =>
      .failure (some summary) (some hs) ("Response is not valid JSON: " ++ m) (some rawText)
    | none => .success summary hs pr.1 rawText

/-- A thrown JS exception as observed by the `catch` block: its `name`
and `message`. -/
structure JsError where
  name : String
  message : String
deriving Repr

/-- The `catch` block of `analyze`: an `AbortError` (the cancellation
token firing) maps to the timeout message, anything else surfaces its
message verbatim; no summary or headers are attached. -/
def analyzeCatch (timeoutMs : Nat) (e : JsError) : AnalyzedResult :=
  .failure none none
    (if e.name = "AbortError" then "Request aborted after " ++ toString timeoutMs ++ " ms"
     else e.message)
    none

/-- One full `analyze` invocation over the network outcome: either the
response-processing phase on a received response, or the `catch`
block on a thrown exception.  Being a total function, every invocation
yields an `AnalyzedResult` (the "never rejects" contract). -/
def analyzeRun (url method : String) (timeoutMs elapsed : Nat)
    (outcome : Sum RespInput JsError) : AnalyzedResult :=
  match outcome with
  | .inl resp => analyzeResponse url method elapsed resp
  | .inr e => analyzeCatch timeoutMs e

/-! ## The Tree Renderer (`TreeNode` / `Value` in `App.tsx`)

Per the design notes of the specification, the per-component expand
state is modelled as an explicit tree of display-node records, each
carrying its own boolean flag, keyed by its path from the root. -/

/-- JS truthiness of an optional boolean prop (`undefined` is falsy). -/
def truthy : Option Bool → Bool
  | some b => b
  | none => false

/-- Initialization `useState<boolean>(collapsed ? false : level < 1)`: the initial
expanded state of a branch node. -/
def initOpen (collapsed : Option Bool) (level : Nat) : Bool :=
  if truthy collapsed then false else decide (level < 1)

/-- The `Value` component: the formatted text of a leaf value.  On the
`Json` model, `typeof` dispatches to: string (quoted), number, boolean
(`String(data)`), and object (`null` renders as `"null"`, any other
object as `"object"`). -/
def formatValue : Json → String
  | .str s => "\"" ++ s ++ "\""
  | .num n => toString n
  | .bool b => if b then "true" else "false"
  | .null => "null"
  | .arr _ => "object"
  | .obj _ => "object"

/-- A leaf row: `"{name}: " + formattedValue` when the node is named,
else just the formatted value. -/
def renderLeaf (name : Option String) (v : Json) : String :=
  match name with
  | some n => n ++ ": " ++ formatValue v
  | none => formatValue v

/-- A rendered display node: a leaf row, or a branch row with its
label, child-count annotation, expanded flag, and children. -/
inductive DisplayTree where
  | leaf (text : String)
  | branch (label : String) (count : String) (openFlag : Bool)
      (children : List DisplayTree)
deriving Repr

/-- The label of an unnamed object branch. -/
def objLabel : String := String.mk [lbrace, rbrace]

/-- The child-count annotation of an object branch. -/
def objCount (n : Nat) : String :=
  "  " ++ String.mk [lbrace] ++ toString n ++ String.mk [rbrace]

/-- The child-count annotation of an array branch. -/
def arrCount (n : Nat) : String :=
  "  [" ++ toString n ++ "]"

mutual

/-- The `TreeNode` component: a leaf for a non-object non-array value,
else a branch whose children are the entries (array elements named by
their index, object fields by their key), rendered at `level + 1`;
the `collapsed` prop is never forwarded to children. -/
def renderNode (name : Option String) (data : Json) (level : Nat)
    (collapsed : Option Bool) : DisplayTree :=
  match data with
  | .arr elts =>
    .branch (name.getD "[]") (arrCount elts.length) (initOpen collapsed level)
      (renderArrKids 0 (level + 1) elts)
  | .obj fields =>
    .branch (name.getD objLabel) (objCount fields.length) (initOpen collapsed level)
      (renderObjKids (level + 1) fields)
  | v => .leaf (renderLeaf name v)

/-- Array children: named `String(i)` in index order. -/
def renderArrKids (i level : Nat) : List Json → List DisplayTree
  | [] => []
  | v :: vs => renderNode (some (toString i)) v level none :: renderArrKids (i + 1) level vs

/-- Object children: named by key in insertion order. -/
def renderObjKids (level : Nat) : List (String × Json) → List DisplayTree
  | [] => []
  | (k, v) :: fs => renderNode (some k) v level none :: renderObjKids level fs

end

/-- The expanded flag of the node at `path` (child steps by index);
`none` when the path misses or lands on a leaf. -/
def openFlagAt (p : List Nat) (t : DisplayTree) : Option Bool :=
  match p, t with
  | [], .branch _ _ o _ => some o
  | i :: p2, .branch _ _ _ cs =>
    match cs[i]? with
    | some c => openFlagAt p2 c
    | none => none
  | _, .leaf _ => none

/-- Apply `f` to the `i`-th element of a list, leaving the rest
unchanged. -/
def mapAtIdx (f : DisplayTree → DisplayTree) : Nat → List DisplayTree → List DisplayTree
  | _, [] => []
  | 0, c :: cs => f c :: cs
  | i + 1, c :: cs => c :: mapAtIdx f i cs

/-- The `toggle` handler on the node at `path`: `setOpen(!open)` flips that node's
own flag; the records of all other nodes are untouched. -/
def toggleTree (p : List Nat) (t : DisplayTree) : DisplayTree :=
  match p, t with
  | [], .branch l c o cs => .branch l c (!o) cs
  | i :: p2, .branch l c o cs => .branch l c o (mapAtIdx (fun k => toggleTree p2 k) i cs)
  | _, .leaf s => .leaf s

/-! ## Concurrency model of `analyze` invocations

`App` holds `controllerRef` (the single mutable slot with the active
`AbortController`) and the `result` state.  Each `analyze` invocation
first aborts the previous controller, replaces the slot, and clears
the result (`setResult(null)`); when its promise chain finishes
(normally or through the `catch` block) it writes the result slot
unconditionally — the source compares nothing against
`controllerRef.current` before calling `setResult`. -/

/-- The shared mutable state of `App`: which invocation owns the
current controller slot (`0` = none yet), which invocations have had
their controller aborted, and the result slot tagged with the
invocation that wrote it. -/
structure AppState where
  current : Nat
  aborted : List Nat
  result : Option (Nat × AnalyzedResult)
deriving Repr

/-- An event in the cooperative interleaving of `analyze` invocations:
`start id` is the synchronous prefix of invocation `id` (abort the
previous controller, install its own, clear the result), `finish id r`
is invocation `id` resolving and writing `r` via `setResult`. -/
inductive AnalyzeEv where
  | start (id : Nat)
  | finish (id : Nat) (r : AnalyzedResult)

/-- One event of the interleaving, exactly as the source performs it:
`finish` stores unconditionally, with no ownership check. -/
def stepApp (s : AppState) (e : AnalyzeEv) : AppState :=
  match e with
  | .start id =>
    { current := id
      aborted := if s.current ≠ 0 then s.current :: s.aborted else s.aborted
      result := none }
  | .finish id r => { s with result := some (id, r) }

/-- Run a trace of events from a state. -/
def runTrace (s : AppState) : List AnalyzeEv → AppState
  | [] => s
  | e :: es => runTrace (stepApp s e) es

/-- The initial `App` state: no controller, no result. -/
def initApp : AppState := ⟨0, [], none⟩

/-! ## Claim theorems -/

/-- C1: for every received response, `analyze` selects the outcome in
priority order: a non-2xx status yields the failure variant with error
`"Request failed with status {status}"` and summary/headers/rawText
populated (taking priority over any recorded parse error); otherwise a
recorded strict-branch parse error yields the failure variant with
error `"Response is not valid JSON: {message}"` and
summary/headers/rawText populated; otherwise the success variant
carries summary, headers, parsed data and rawText. -/
theorem c1_outcome_priority (url method : String) (elapsed : Nat) (resp : RespInput) :
    (respOk resp.status = false →
      analyzeResponse url method elapsed resp =
        .failure (some (mkSummary url method elapsed resp))
          (some (collectHeaders resp.rawHeaders))
          ("Request failed with status " ++ toString resp.status)
          (some (computeRawText method resp.body)))
    ∧ (∀ m, respOk resp.status = true →
      (parseBody (collectHeaders resp.rawHeaders) (computeRawText method resp.body)).2 = some m →
      analyzeResponse url method elapsed resp =
        .failure (some (mkSummary url method elapsed resp))
          (some (collectHeaders resp.rawHeaders))
          ("Response is not valid JSON: " ++ m)
          (some (computeRawText method resp.body)))
    ∧ (respOk resp.status = true →
      (parseBody (collectHeaders resp.rawHeaders) (computeRawText method resp.body)).2 = none →
      analyzeResponse url method elapsed resp =
        .success (mkSummary url method elapsed resp)
          (collectHeaders resp.rawHeaders)
          (parseBody (collectHeaders resp.rawHeaders) (computeRawText method resp.body)).1
          (computeRawText method resp.body)) := by
  refine ⟨fun h => ?_, fun m hok hp => ?_, fun hok hp => ?_⟩
  · simp [analyzeResponse, h]
  · simp [analyzeResponse, hok, hp]
  · simp [analyzeResponse, hok, hp]

/-- C1 witness: a 404 response yields the status failure. -/
theorem c1_witness :
    analyzeResponse "u" "GET" 5 ⟨404, "Not Found", [], "x"⟩ =
      .failure (some (mkSummary "u" "GET" 5 ⟨404, "Not Found", [], "x"⟩)) (some [])
        "Request failed with status 404" (some "x") :=
  (c1_outcome_priority "u" "GET" 5 ⟨404, "Not Found", [], "x"⟩).1 (by decide)

/-- C2: for every non-empty body, the two-tier parsing policy: a
JSON-indicating content type with a failing parse records the parser's
message; a non-JSON content type with a failing parse falls back to the
raw text as the parsed value with no error; a successful parse is used
as the data in either branch. -/
theorem c2_two_tier_parsing (hs : Headers) (rawText : String) (hne : rawText ≠ "") :
    (∀ m, ctIndicatesJson hs = true → jsonParse rawText = .error m →
      parseBody hs rawText = (Json.null, some m))
    ∧ (∀ m, ctIndicatesJson hs = false → jsonParse rawText = .error m →
      parseBody hs rawText = (Json.str rawText, none))
    ∧ (∀ v, jsonParse rawText = .ok v → parseBody hs rawText = (v, none)) := by
  refine ⟨fun m hct hp => ?_, fun m hct hp => ?_, fun v hp => ?_⟩
  · simp [parseBody, hne, hct, hp]
  · simp [parseBody, hne, hct, hp]
  · cases hct : ctIndicatesJson hs <;> simp [parseBody, hne, hct, hp]

/-- C2 witness: a declared-JSON body that fails to parse records the
parse error; a plain-text body that fails to parse becomes the data. -/
theorem c2_witness :
    parseBody [("content-type", "application/json")] "not json" =
      (Json.null, some "Unexpected token n in JSON")
    ∧ parseBody [("content-type", "text/plain")] "not json" =
      (Json.str "not json", none) :=
  ⟨(c2_two_tier_parsing [("content-type", "application/json")] "not json"
      (by decide)).1 "Unexpected token n in JSON" (by decide) rfl,
   ((c2_two_tier_parsing [("content-type", "text/plain")] "not json"
      (by decide)).2).1 "Unexpected token n in JSON" (by decide) rfl⟩

/-- C3: every invocation resolves to an `AnalyzedResult` (`analyzeRun`
is a total function); for an exception in the network phase, an
`AbortError` yields the failure `"Request aborted after {timeoutMs} ms"`
and any other exception surfaces its message verbatim, with summary and
headers absent in both cases. -/
theorem c3_network_exceptions (url method : String) (timeoutMs elapsed : Nat) (e : JsError) :
    (e.name = "AbortError" →
      analyzeRun url method timeoutMs elapsed (.inr e) =
        .failure none none ("Request aborted after " ++ toString timeoutMs ++ " ms") none)
    ∧ (e.name ≠ "AbortError" →
      analyzeRun url method timeoutMs elapsed (.inr e) =
        .failure none none e.message none) := by
  refine ⟨fun h => ?_, fun h => ?_⟩ <;> simp [analyzeRun, analyzeCatch, h]

/-- C3 witness: a timeout abort and a plain network error. -/
theorem c3_witness :
    analyzeRun "u" "GET" 15000 0 (.inr ⟨"AbortError", "signal is aborted"⟩) =
      .failure none none "Request aborted after 15000 ms" none
    ∧ analyzeRun "u" "GET" 15000 0 (.inr ⟨"TypeError", "Failed to fetch"⟩) =
      .failure none none "Failed to fetch" none :=
  ⟨(c3_network_exceptions "u" "GET" 15000 0 ⟨"AbortError", "signal is aborted"⟩).1 rfl,
   (c3_network_exceptions "u" "GET" 15000 0 ⟨"TypeError", "Failed to fetch"⟩).2 (by decide)⟩

/-- C4: `sizeBytes` prefers the numeric value of the `content-length`
header whenever that value is greater than zero, regardless of the
body; otherwise it is the UTF-8 byte length of a non-empty body text,
and absent for an empty body. -/
theorem c4_size_bytes (hs : Headers) (rawText : String) :
    (∀ n, jsNumber (getHeader hs "content-length") = some n → 0 < n →
      computeSizeBytes hs rawText = some n)
    ∧ ((jsNumber (getHeader hs "content-length") = none ∨
        (∃ n, jsNumber (getHeader hs "content-length") = some n ∧ n ≤ 0)) →
      (rawText ≠ "" → computeSizeBytes hs rawText = some (rawText.utf8ByteSize : Int))
      ∧ (rawText = "" → computeSizeBytes hs rawText = none)) := by
  constructor
  · intro n hn hpos
    simp [computeSizeBytes, hn, hpos]
  · rintro (hn | ⟨n, hn, hle⟩)
    · exact ⟨fun hne => by simp [computeSizeBytes, hn, hne],
             fun he => by simp [computeSizeBytes, hn, he]⟩
    · have hnot : ¬ 0 < n := by omega
      exact ⟨fun hne => by simp [computeSizeBytes, hn, hnot, hne],
             fun he => by simp [computeSizeBytes, hn, hnot, he]⟩

/-- C4 witness: the header value `"1024"` wins over a 2-byte body; with
no header a 5-byte body is measured; with neither, absent. -/
theorem c4_witness :
    computeSizeBytes [("content-length", "1024")] "hi" = some 1024
    ∧ computeSizeBytes [] "hello" = some 5
    ∧ computeSizeBytes [] "" = none :=
  ⟨(c4_size_bytes [("content-length", "1024")] "hi").1 1024 rfl (by decide),
   ((c4_size_bytes [] "hello").2 (Or.inl rfl)).1 (by decide),
   ((c4_size_bytes [] "").2 (Or.inl rfl)).2 rfl⟩

/-- C5 (design requirement violated by the code): starting a new
invocation does abort the prior controller and replace the slot, but
`setResult` carries no ownership check, so a late-arriving cancelled
invocation 1 overwrites invocation 2's already-published result: after
the trace below the result slot is tagged by invocation 1 while the
current controller belongs to invocation 2. -/
theorem c5_stale_result_overwrites :
    (runTrace initApp
      [.start 1, .start 2,
       .finish 2 (analyzeRun "u" "GET" 15000 3 (.inl ⟨200, "OK", [], "true"⟩)),
       .finish 1 (analyzeCatch 15000 ⟨"AbortError", "signal is aborted"⟩)]).current = 2
    ∧ (runTrace initApp
      [.start 1, .start 2,
       .finish 2 (analyzeRun "u" "GET" 15000 3 (.inl ⟨200, "OK", [], "true"⟩)),
       .finish 1 (analyzeCatch 15000 ⟨"AbortError", "signal is aborted"⟩)]).aborted = [1]
    ∧ (runTrace initApp
      [.start 1, .start 2,
       .finish 2 (analyzeRun "u" "GET" 15000 3 (.inl ⟨200, "OK", [], "true"⟩)),
       .finish 1 (analyzeCatch 15000 ⟨"AbortError", "signal is aborted"⟩)]).result
        = some (1, .failure none none "Request aborted after 15000 ms" none)
    ∧ ((runTrace initApp
      [.start 1, .start 2,
       .finish 2 (analyzeRun "u" "GET" 15000 3 (.inl ⟨200, "OK", [], "true"⟩)),
       .finish 1 (analyzeCatch 15000 ⟨"AbortError", "signal is aborted"⟩)]).result.map
        Prod.fst ≠ some 2) :=
  ⟨rfl, rfl, rfl, by decide⟩

/-- C6: a branch node's expanded state is initialized to `true` exactly
when its depth is below 1, unless the caller explicitly passes a
truthy `collapsed`, in which case it is `false` regardless of depth. -/
theorem c6_init_expanded (collapsed : Option Bool) (level : Nat) :
    (truthy collapsed = true → initOpen collapsed level = false)
    ∧ (truthy collapsed = false → (initOpen collapsed level = true ↔ level < 1)) := by
  refine ⟨fun h => ?_, fun h => ?_⟩ <;> simp [initOpen, h]

/-- C6 witness: a collapsed root starts closed; a plain root starts
open; a depth-3 node starts closed. -/
theorem c6_witness :
    initOpen (some true) 0 = false ∧ initOpen none 0 = true ∧ initOpen none 3 ≠ true :=
  ⟨(c6_init_expanded (some true) 0).1 rfl,
   ((c6_init_expanded none 0).2 rfl).mpr (by decide),
   fun h => by simpa using ((c6_init_expanded none 3).2 rfl).mp h⟩

/-- C7 counterexample: the claim says first-level children (depth 1)
start expanded, but in `render` of the object with a single branch
child `b`, that child (depth 1) initializes closed. -/
theorem c7_counterexample :
    ¬ openFlagAt [0]
        (renderNode none (Json.obj [("b", Json.obj [("c", Json.num 2)])]) 0 none)
      = some true := by
  decide

/-- C7 (amended): the expanded flag is initialized to `true` for the
root (depth 0) only, `false` for every deeper node (first-level
children included), and `false` regardless of depth when a truthy
`collapsed` is passed. -/
theorem c7_amended_init (collapsed : Option Bool) (level : Nat) :
    (truthy collapsed = false → (initOpen collapsed level = true ↔ level = 0))
    ∧ (truthy collapsed = true → initOpen collapsed level = false) := by
  refine ⟨fun h => ?_, fun h => ?_⟩
  · simp only [initOpen, h, if_false, Bool.false_eq_true, decide_eq_true_eq]
    omega
  · simp [initOpen, h]

/-- C7 amended witness: the root starts open, a depth-1 child closed. -/
theorem c7_amended_witness :
    initOpen none 0 = true ∧ initOpen none 1 ≠ true :=
  ⟨((c7_amended_init none 0).1 rfl).mpr rfl,
   fun h => by simpa using ((c7_amended_init none 1).1 rfl).mp h⟩

/-- C10: for every 2xx response whose body text is empty — including
every HEAD request, whose body is forced to the empty string — `run`
returns the success variant with `data = null` (no parse attempted, no
parse error even when the content type declares JSON), so an empty
body is indistinguishable in `data` from the body `"null"`. -/
theorem c10_empty_body (url : String) (elapsed : Nat) (resp : RespInput)
    (h2xx : respOk resp.status = true) :
    (resp.body = "" →
      analyzeResponse url "GET" elapsed resp =
        .success (mkSummary url "GET" elapsed resp) (collectHeaders resp.rawHeaders)
          Json.null "")
    ∧ analyzeResponse url "HEAD" elapsed resp =
        .success (mkSummary url "HEAD" elapsed resp) (collectHeaders resp.rawHeaders)
          Json.null ""
    ∧ (resp.body = "null" →
      analyzeResponse url "GET" elapsed resp =
        .success (mkSummary url "GET" elapsed resp) (collectHeaders resp.rawHeaders)
          Json.null "null") := by
  have hGet : ∀ b : String, computeRawText "GET" b = b := fun b => rfl
  have hHead : computeRawText "HEAD" resp.body = "" := rfl
  have hEmpty : ∀ hs : Headers, parseBody hs "" = (Json.null, none) := fun hs => by
    simp [parseBody]
  have hNullParse : jsonParse "null" = .ok Json.null := rfl
  have hNullBody : ∀ hs : Headers, parseBody hs "null" = (Json.null, none) := fun hs => by
    cases hct : ctIndicatesJson hs <;> simp [parseBody, hct, hNullParse]
  refine ⟨fun hb => ?_, ?_, fun hb => ?_⟩
  · simp [analyzeResponse, h2xx, computeRawText, hb, hEmpty]
  · simp [analyzeResponse, h2xx, hHead, hEmpty]
  · simp [analyzeResponse, h2xx, computeRawText, hb, hNullBody]

/-- C10 witness: a 200 response with a JSON content type and an empty
body succeeds with `data = null`; so does the same body `"null"`. -/
theorem c10_witness :
    analyzeResponse "u" "GET" 1 ⟨200, "OK", [("Content-Type", "application/json")], ""⟩ =
      .success (mkSummary "u" "GET" 1 ⟨200, "OK", [("Content-Type", "application/json")], ""⟩)
        [("content-type", "application/json")] Json.null "" :=
  ((c10_empty_body "u" 1 ⟨200, "OK", [("Content-Type", "application/json")], ""⟩
    (by decide)).1 rfl)

/-! ## Toggle independence (claim C8) -/

/-- Updating via `mapAtIdx` touches exactly the `i`-th element. -/
theorem mapAtIdx_getElem (f : DisplayTree → DisplayTree) :
    ∀ (cs : List DisplayTree) (i j : Nat),
      (mapAtIdx f i cs)[j]? = if j = i then (cs[j]?).map f else cs[j]?
  | [], i, j => by simp [mapAtIdx]
  | c :: cs, 0, 0 => by simp [mapAtIdx]
  | c :: cs, 0, j + 1 => by simp [mapAtIdx]
  | c :: cs, i + 1, 0 => by simp [mapAtIdx]
  | c :: cs, i + 1, j + 1 => by
    simp [mapAtIdx, mapAtIdx_getElem f cs i j]

/-- Toggling the node at `p` leaves the expanded flag of every other
node unchanged. -/
theorem toggleTree_openFlagAt_other :
    ∀ (p : List Nat) (t : DisplayTree) (q : List Nat), q ≠ p →
      openFlagAt q (toggleTree p t) = openFlagAt q t
  | [], .leaf _, _, _ => rfl
  | [], .branch _ _ _ _, [], h => absurd rfl h
  | [], .branch _ _ _ _, _ :: _, _ => rfl
  | _ :: _, .leaf _, _, _ => rfl
  | _ :: _, .branch _ _ _ _, [], _ => rfl
  | i :: p2, .branch l c o cs, j :: q2, h => by
    by_cases hj : j = i
    · subst hj
      have hq2 : q2 ≠ p2 := fun he => h (by rw [he])
      simp only [toggleTree, openFlagAt, mapAtIdx_getElem, if_pos rfl]
      cases hc : cs[j]? with
      | none => simp
      | some k => simp [toggleTree_openFlagAt_other p2 k q2 hq2]
    · simp only [toggleTree, openFlagAt, mapAtIdx_getElem, if_neg hj]

/-- Toggling the node at `p` flips that node's own expanded flag. -/
theorem toggleTree_openFlagAt_self :
    ∀ (p : List Nat) (t : DisplayTree) (b : Bool), openFlagAt p t = some b →
      openFlagAt p (toggleTree p t) = some (!b)
  | [], .branch _ _ o _, b, h => by
    cases h
    rfl
  | i :: p2, .branch l c o cs, b, h => by
    simp only [openFlagAt] at h
    simp only [toggleTree, openFlagAt, mapAtIdx_getElem, if_pos rfl]
    cases hc : cs[i]? with
    | none => rw [hc] at h; cases h
    | some k =>
      rw [hc] at h
      simp [toggleTree_openFlagAt_self p2 k b h]

/-- C8: toggling any branch node flips only that node's own expanded
state; the expanded state of every other node — sibling, ancestor or
descendant — is unchanged. -/
theorem c8_toggle_independence (t : DisplayTree) (p q : List Nat) :
    (∀ b, openFlagAt p t = some b → openFlagAt p (toggleTree p t) = some (!b))
    ∧ (q ≠ p → openFlagAt q (toggleTree p t) = openFlagAt q t) :=
  ⟨fun b h => toggleTree_openFlagAt_self p t b h,
   fun h => toggleTree_openFlagAt_other p t q h⟩

/-- C8 witness: in a two-node tree, toggling the first child flips it
and leaves the root's flag as it was. -/
theorem c8_witness :
    openFlagAt [0]
      (toggleTree [0] (.branch "r" "c" true [.branch "a" "c" false [], .leaf "x"]))
      = some true
    ∧ openFlagAt []
      (toggleTree [0] (.branch "r" "c" true [.branch "a" "c" false [], .leaf "x"]))
      = openFlagAt [] (.branch "r" "c" true [.branch "a" "c" false [], .leaf "x"]) :=
  ⟨(c8_toggle_independence (.branch "r" "c" true [.branch "a" "c" false [], .leaf "x"])
      [0] []).1 false rfl,
   (c8_toggle_independence (.branch "r" "c" true [.branch "a" "c" false [], .leaf "x"])
      [0] []).2 (by decide)⟩

/-! ## Decimal digits (for the leaf round-trip, claim C9)

`Value` renders a number via JS `String(number)`, which for the
integer-valued numbers of the model coincides with `Nat.repr` /
`Int.repr`.  The following characterizes the digit string `Nat.repr`
produces and shows the parser recovers the value. -/

/-- The decimal digit characters of `n`, most significant first. -/
def natDigits (n : Nat) : List Char :=
  if _h : n < 10 then [Nat.digitChar n]
  else natDigits (n / 10) ++ [Nat.digitChar (n % 10)]
decreasing_by exact Nat.div_lt_self (by omega) (by omega)

/-- A number below 10 has a single digit character. -/
theorem natDigits_lt (n : Nat) (h : n < 10) : natDigits n = [Nat.digitChar n] := by
  rw [natDigits]
  exact dif_pos h

/-- A number of 10 or more splits into leading digits and last digit. -/
theorem natDigits_ge (n : Nat) (h : 10 ≤ n) :
    natDigits n = natDigits (n / 10) ++ [Nat.digitChar (n % 10)] := by
  rw [natDigits]
  exact dif_neg (by omega)

/-- Core's `Nat.toDigitsCore` agrees with `natDigits` when given enough fuel. -/
theorem toDigitsCore_eq_natDigits :
    ∀ (fuel n : Nat) (acc : List Char), n < fuel →
      Nat.toDigitsCore 10 fuel n acc = natDigits n ++ acc := by
  intro fuel
  induction fuel with
  | zero => intro n acc h; omega
  | succ fuel ih =>
    intro n acc h
    simp only [Nat.toDigitsCore]
    by_cases h10 : n / 10 = 0
    · have hn : n < 10 := by omega
      rw [if_pos h10, natDigits_lt n hn, Nat.mod_eq_of_lt hn]
      simp
    · have hge : 10 ≤ n := by omega
      have hlt : n / 10 < fuel := by
        have h1 : n / 10 < n := Nat.div_lt_self (by omega) (by omega)
        omega
      rw [if_neg h10, ih (n / 10) (Nat.digitChar (n % 10) :: acc) hlt, natDigits_ge n hge]
      simp

/-- The characters of `Nat.repr` are exactly `natDigits`. -/
theorem natRepr_data (n : Nat) : (Nat.repr n).data = natDigits n := by
  show (Nat.toDigits 10 n).asString.data = natDigits n
  rw [Nat.toDigits, toDigitsCore_eq_natDigits (n + 1) n [] (by omega)]
  simp [List.asString]

/-- Digit characters are decimal digits. -/
theorem digitChar_isDigit (k : Nat) (h : k < 10) : (Nat.digitChar k).isDigit = true := by
  interval_cases k <;> decide

/-- The parser's digit-value step inverts `Nat.digitChar`. -/
theorem digitChar_val (k : Nat) (h : k < 10) : (Nat.digitChar k).toNat - 48 = k := by
  interval_cases k <;> decide

/-- Every character of `natDigits n` is a decimal digit. -/
theorem natDigits_all_digit (n : Nat) : ∀ c ∈ natDigits n, c.isDigit = true := by
  induction n using Nat.strong_induction_on with
  | _ n ih =>
    by_cases h : n < 10
    · rw [natDigits_lt n h]
      intro c hc
      rw [List.mem_singleton.mp hc]
      exact digitChar_isDigit n h
    · rw [natDigits_ge n (by omega)]
      intro c hc
      rcases List.mem_append.mp hc with h1 | h2
      · exact ih (n / 10) (Nat.div_lt_self (by omega) (by omega)) c h1
      · rw [List.mem_singleton.mp h2]
        exact digitChar_isDigit (n % 10) (Nat.mod_lt _ (by omega))

/-- The list `natDigits n` is never empty. -/
theorem natDigits_ne_nil (n : Nat) : natDigits n ≠ [] := by
  by_cases h : n < 10
  · rw [natDigits_lt n h]; simp
  · rw [natDigits_ge n (by omega)]; simp

/-- The parser's fold recovers the value from the digit string. -/
theorem digitsVal_natDigits (n : Nat) : digitsVal (natDigits n) = n := by
  induction n using Nat.strong_induction_on with
  | _ n ih =>
    by_cases h : n < 10
    · rw [natDigits_lt n h]
      show (0 : Nat) * 10 + ((Nat.digitChar n).toNat - 48) = n
      rw [Nat.zero_mul, Nat.zero_add]
      exact digitChar_val n h
    · have hge : 10 ≤ n := by omega
      rw [natDigits_ge n hge]
      show (natDigits (n / 10) ++ [Nat.digitChar (n % 10)]).foldl
        (fun a c => a * 10 + (c.toNat - 48)) 0 = n
      rw [List.foldl_append]
      show digitsVal (natDigits (n / 10)) * 10 + ((Nat.digitChar (n % 10)).toNat - 48) = n
      rw [ih (n / 10) (Nat.div_lt_self (by omega) (by omega)),
        digitChar_val (n % 10) (Nat.mod_lt _ (by omega))]
      omega

/-- A decimal digit character is not whitespace and is none of the
parser's dispatch characters. -/
theorem digit_char_facts (c : Char) (hc : c.isDigit = true) :
    isWs c = false ∧ ¬ c = '"' ∧ ¬ c = 't' ∧ ¬ c = 'f' ∧ ¬ c = 'n'
    ∧ ¬ c = '[' ∧ ¬ c = lbrace ∧ ¬ c = '-' := by
  have hne : ∀ d : Char, d.isDigit = false → ¬ c = d := by
    intro d hd he
    rw [he, hd] at hc
    exact Bool.noConfusion hc
  refine ⟨?_, hne _ (by decide), hne _ (by decide), hne _ (by decide),
    hne _ (by decide), hne _ (by decide), hne _ (by decide), hne _ (by decide)⟩
  have hsp : ¬ c = ' ' := hne _ (by decide)
  have htb : ¬ c = '\t' := hne _ (by decide)
  have hnl : ¬ c = '\n' := hne _ (by decide)
  have hcr : ¬ c = '\r' := hne _ (by decide)
  simp [isWs, hsp, htb, hnl, hcr]

/-- Running `parseVal` on a pure digit string returns its numeric value. -/
theorem parseVal_digits (fuel : Nat) (c : Char) (l : List Char)
    (hc : c.isDigit = true) (hl : ∀ d ∈ l, d.isDigit = true) :
    parseVal (fuel + 1) (c :: l) = .ok (.num ((digitsVal (c :: l) : Nat) : Int), []) := by
  obtain ⟨hws, h1, h2, h3, h4, h5, h6, h7⟩ := digit_char_facts c hc
  have hall : ∀ d ∈ c :: l, d.isDigit = true := by
    intro d hd
    rcases List.mem_cons.mp hd with rfl | hd
    exacts [hc, hl d hd]
  have hskip : skipWs (c :: l) = c :: l := by
    simp [skipWs, List.dropWhile_cons, hws]
  have htake : (c :: l).takeWhile Char.isDigit = c :: l :=
    List.takeWhile_eq_self_iff.mpr hall
  have hdrop : (c :: l).dropWhile Char.isDigit = [] :=
    List.dropWhile_eq_nil_iff.mpr hall
  simp only [parseVal, hskip, if_neg h1, if_neg h2, if_neg h3, if_neg h4, if_neg h5,
    if_neg h6, hc, decide_eq_false h7, Bool.false_or, if_pos, if_neg h7, htake, hdrop,
    reduceCtorEq, ite_false, ite_true]

/-- Running `parseVal` on a minus sign followed by digits returns the negated
value. -/
theorem parseVal_neg_digits (fuel : Nat) (c : Char) (l : List Char)
    (hc : c.isDigit = true) (hl : ∀ d ∈ l, d.isDigit = true) :
    parseVal (fuel + 1) ('-' :: c :: l) =
      .ok (.num (-((digitsVal (c :: l) : Nat) : Int)), []) := by
  have hall : ∀ d ∈ c :: l, d.isDigit = true := by
    intro d hd
    rcases List.mem_cons.mp hd with rfl | hd
    exacts [hc, hl d hd]
  have htake : (c :: l).takeWhile Char.isDigit = c :: l :=
    List.takeWhile_eq_self_iff.mpr hall
  have hdrop : (c :: l).dropWhile Char.isDigit = [] :=
    List.dropWhile_eq_nil_iff.mpr hall
  have hskip : skipWs ('-' :: c :: l) = '-' :: c :: l := by
    simp [skipWs, List.dropWhile_cons, isWs]
  simp only [parseVal, hskip]
  norm_num [htake, hdrop]
  rw [if_neg (show ¬ '-' = lbrace by decide)]
  simp [hc]

/-- Parsing recovers an integer from its rendered text. -/
theorem jsonParse_intToString (n : Int) : jsonParse (toString n) = .ok (.num n) := by
  cases n with
  | ofNat m =>
    have hdata : (toString (Int.ofNat m)).data = natDigits m := natRepr_data m
    have hall := natDigits_all_digit m
    rcases hd : natDigits m with _ | ⟨c, l⟩
    · exact absurd hd (natDigits_ne_nil m)
    · rw [hd] at hdata hall
      have hc : c.isDigit = true := hall c (by simp)
      have hl : ∀ d ∈ l, d.isDigit = true := fun d hdm => hall d (by simp [hdm])
      unfold jsonParse
      rw [hdata]
      rw [show 2 * (c :: l).length + 2 = (2 * (c :: l).length + 1) + 1 from rfl]
      rw [parseVal_digits _ c l hc hl]
      have hval : digitsVal (c :: l) = m := by rw [← hd]; exact digitsVal_natDigits m
      simp [skipWs, hval]
  | negSucc m =>
    have hdata : (toString (Int.negSucc m)).data = '-' :: natDigits (m + 1) := by
      show ("-" ++ Nat.repr (m + 1)).data = _
      rw [String.data_append, natRepr_data]
      rfl
    have hall := natDigits_all_digit (m + 1)
    rcases hd : natDigits (m + 1) with _ | ⟨c, l⟩
    · exact absurd hd (natDigits_ne_nil (m + 1))
    · rw [hd] at hdata hall
      have hc : c.isDigit = true := hall c (by simp)
      have hl : ∀ d ∈ l, d.isDigit = true := fun d hdm => hall d (by simp [hdm])
      unfold jsonParse
      rw [hdata]
      rw [show 2 * ('-' :: c :: l).length + 2 = (2 * ('-' :: c :: l).length + 1) + 1 from rfl]
      rw [parseVal_neg_digits _ c l hc hl]
      have hval : digitsVal (c :: l) = m + 1 := by rw [← hd]; exact digitsVal_natDigits (m + 1)
      simp [skipWs, hval, Int.negSucc_eq]

/-- A character that the `Value` component can render inside a quoted
string without breaking the JSON string-literal grammar: not a quote,
not a backslash, not a control character. -/
def safeChar (c : Char) : Bool :=
  !(c == '"') && !(c == '\\') && decide (32 ≤ c.toNat)

/-- Scanning `parseStrBody` over a safe character sequence up to the closing
quote verbatim. -/
theorem parseStrBody_safe :
    ∀ (l rest : List Char), (∀ c ∈ l, safeChar c = true) →
      parseStrBody (l ++ '"' :: rest) = some (l, rest)
  | [], rest, _ => rfl
  | c :: l, rest, h => by
    have hc := h c (by simp)
    simp only [safeChar, Bool.and_eq_true, Bool.not_eq_true', beq_eq_false_iff_ne,
      ne_eq, decide_eq_true_eq] at hc
    obtain ⟨⟨h1, h2⟩, h3⟩ := hc
    show parseStrBody (c :: (l ++ '"' :: rest)) = some (c :: l, rest)
    have hIH : parseStrBody (l ++ '"' :: rest) = some (l, rest) :=
      parseStrBody_safe l rest (fun d hd => h d (by simp [hd]))
    rw [parseStrBody.eq_def]
    split
    all_goals simp_all

/-- Parsing recovers a safe string from its quoted rendering. -/
theorem jsonParse_strLit (s : String) (hs : s.data.all safeChar = true) :
    jsonParse ("\"" ++ s ++ "\"") = .ok (.str s) := by
  have hall : ∀ c ∈ s.data, safeChar c = true := by
    simpa [List.all_eq_true] using hs
  have hdata : ("\"" ++ s ++ "\"").data = '"' :: (s.data ++ '"' :: []) := by
    simp
  have hmk : String.mk s.data = s := by cases s; rfl
  unfold jsonParse
  rw [hdata,
    show 2 * ('"' :: (s.data ++ '"' :: [])).length + 2
      = (2 * ('"' :: (s.data ++ '"' :: [])).length + 1) + 1 from rfl]
  simp only [parseVal]
  have hskip : skipWs ('"' :: (s.data ++ '"' :: [])) = '"' :: (s.data ++ '"' :: []) := by
    simp [skipWs, List.dropWhile_cons, isWs]
  rw [hskip]
  simp [parseStrBody_safe s.data [] hall, skipWs, hmk]

/-- Structure of a successful string-body parse: the scan consumes at
least one input character per content character plus the closing
quote, and consumes exactly that many only when every decoded
character is safe (every escape sequence strictly shrinks). -/
theorem parseStrBody_spec :
    ∀ (n : Nat) (cs : List Char), cs.length ≤ n →
      ∀ (content rest : List Char), parseStrBody cs = some (content, rest) →
        content.length + 1 + rest.length ≤ cs.length
        ∧ (content.length + 1 + rest.length = cs.length →
            ∀ c ∈ content, safeChar c = true) := by
  intro n
  induction n with
  | zero =>
    intro cs hlen content rest h
    have hnil : cs = [] := List.eq_nil_of_length_eq_zero (by omega)
    subst hnil
    exact absurd h (by simp [parseStrBody])
  | succ n ih =>
    intro cs hlen content rest h
    rw [parseStrBody.eq_def] at h
    split at h
    · exact absurd h (by simp)
    · simp only [Option.some.injEq, Prod.mk.injEq] at h
      obtain ⟨h1, h2⟩ := h
      subst h1
      subst h2
      simp only [List.length_cons, List.length_nil]
      exact ⟨by omega, fun _ c hc => absurd hc (List.not_mem_nil c)⟩
    · split at h
      · rw [Option.map_eq_some'] at h
        obtain ⟨⟨p1, p2⟩, hp, hfp⟩ := h
        simp only [Prod.mk.injEq] at hfp
        obtain ⟨h1, h2⟩ := hfp
        subst h1
        subst h2
        simp only [List.length_cons] at hlen ⊢
        have hrec := (ih _ (by omega) p1 p2 hp).1
        exact ⟨by omega, fun he => absurd he (by omega)⟩
      · exact absurd h (by simp)
    · split at h
      · rw [Option.map_eq_some'] at h
        obtain ⟨⟨p1, p2⟩, hp, hfp⟩ := h
        simp only [Prod.mk.injEq] at hfp
        obtain ⟨h1, h2⟩ := hfp
        subst h1
        subst h2
        simp only [List.length_cons] at hlen ⊢
        have hrec := (ih _ (by omega) p1 p2 hp).1
        exact ⟨by omega, fun he => absurd he (by omega)⟩
      · exact absurd h (by simp)
    · exact absurd h (by simp)
    · split at h
      · exact absurd h (by simp)
      · rw [Option.map_eq_some'] at h
        obtain ⟨⟨p1, p2⟩, hp, hfp⟩ := h
        simp only [Prod.mk.injEq] at hfp
        obtain ⟨h1, h2⟩ := hfp
        subst h1
        subst h2
        simp only [List.length_cons] at hlen ⊢
        have hrec := ih _ (by omega) p1 p2 hp
        refine ⟨by omega, fun he d hd => ?_⟩
        rcases List.mem_cons.mp hd with rfl | hd2
        · rename_i r hq hu hesc hnil hlt
          have hnb : ¬ d = '\\' := by
            intro hdeq
            cases r with
            | nil => exact hnil hdeq rfl
            | cons e rest2 => exact hesc e rest2 hdeq rfl
          simp only [safeChar, Bool.and_eq_true, Bool.not_eq_true', beq_eq_false_iff_ne,
            ne_eq, decide_eq_true_eq]
          exact ⟨⟨fun hh => hq hh, hnb⟩, by omega⟩
        · exact hrec.2 (by omega) d hd2

/-- Dispatch of `parseVal` on an input starting with a quote. -/
theorem parseVal_quote (fuel : Nat) (cs : List Char) :
    parseVal (fuel + 1) ('"' :: cs) =
      match parseStrBody cs with
      | some (content, rest2) => .ok (.str (String.mk content), rest2)
      | none => .error "Unterminated string in JSON" := by
  have hskip : skipWs ('"' :: cs) = '"' :: cs := by
    simp [skipWs, List.dropWhile_cons, isWs]
  simp only [parseVal, hskip]
  simp

/-- Parsing the quoted rendering of a string that contains a quote,
backslash or control character never returns that same string: a raw
control character or an early unescaped quote fails the parse, and any
processed escape strictly shrinks the decoded content. -/
theorem jsonParse_strLit_unsafe (s : String) (hs : ¬ s.data.all safeChar = true) :
    ¬ jsonParse ("\"" ++ s ++ "\"") = .ok (.str s) := by
  intro h
  have hdata : ("\"" ++ s ++ "\"").data = '"' :: (s.data ++ '"' :: []) := by simp
  unfold jsonParse at h
  rw [hdata,
    show 2 * ('"' :: (s.data ++ '"' :: [])).length + 2
      = (2 * ('"' :: (s.data ++ '"' :: [])).length + 1) + 1 from rfl,
    parseVal_quote] at h
  rcases hp : parseStrBody (s.data ++ '"' :: []) with _ | ⟨content, rest⟩
  · rw [hp] at h
    simp at h
  · rw [hp] at h
    rcases hw : skipWs rest with _ | ⟨c0, cs0⟩
    · simp [hw] at h
      have hcontent : content = s.data := congrArg String.data h
      have hspec := parseStrBody_spec (s.data ++ '"' :: []).length
        (s.data ++ '"' :: []) le_rfl content rest hp
      have hlen1 : content.length + 1 + rest.length ≤ s.data.length + 1 := by
        simpa using hspec.1
      have hclen : content.length = s.data.length := by rw [hcontent]
      have hrest : rest = [] := List.eq_nil_of_length_eq_zero (by omega)
      have hall : ∀ c ∈ content, safeChar c = true := by
        refine hspec.2 ?_
        subst hrest
        simp [hclen]
      apply hs
      rw [List.all_eq_true]
      exact fun c hc => hall c (hcontent ▸ hc)
    · simp [hw] at h

/-- C9 counterexample: `Value` renders a string by bare quote-wrapping
(no escaping), so a string containing a double quote does not
round-trip through JSON parsing: rendering `a"b` yields `"a"b"`, which
is not the JSON literal of `a"b`. -/
theorem c9_counterexample :
    ¬ jsonParse (formatValue (Json.str "a\"b")) = .ok (Json.str "a\"b") := by
  intro h
  rw [show jsonParse (formatValue (Json.str "a\"b"))
      = Except.error "Unexpected non-whitespace character after JSON data" from rfl] at h
  exact Except.noConfusion h

/-- C9 (amended): a leaf renders as `"{name}: " + formattedValue` when
named and as the formatted value otherwise; the displayed leaf
round-trips with JSON parsing for booleans, null, integer numbers, and
exactly those strings free of quotes, backslashes and control
characters (strings are quote-wrapped without escaping): a safe string
round-trips, and a string containing a quote, backslash or control
character never parses back to itself. -/
theorem c9_leaf_format_roundtrip :
    (∀ (nm : String) (v : Json), renderLeaf (some nm) v = nm ++ ": " ++ formatValue v)
    ∧ (∀ v : Json, renderLeaf none v = formatValue v)
    ∧ (∀ b : Bool, jsonParse (formatValue (.bool b)) = .ok (.bool b))
    ∧ jsonParse (formatValue .null) = .ok .null
    ∧ (∀ n : Int, jsonParse (formatValue (.num n)) = .ok (.num n))
    ∧ (∀ s : String,
        jsonParse (formatValue (.str s)) = .ok (.str s) ↔ s.data.all safeChar = true) := by
  refine ⟨fun _ _ => rfl, fun _ => rfl, fun b => ?_, rfl,
    fun n => jsonParse_intToString n,
    fun s => ⟨fun h => ?_, fun hs => jsonParse_strLit s hs⟩⟩
  · cases b <;> rfl
  · by_contra hno
    exact jsonParse_strLit_unsafe s hno h

/-- C9 witness: a named string leaf, and concrete round trips for a
safe string and a negative number. -/
theorem c9_witness :
    renderLeaf (some "k") (Json.str "abc") = "k: \"abc\""
    ∧ jsonParse (formatValue (Json.str "abc")) = .ok (Json.str "abc")
    ∧ jsonParse (formatValue (Json.num (-42))) = .ok (Json.num (-42)) :=
  ⟨c9_leaf_format_roundtrip.1 "k" (Json.str "abc"),
   (c9_leaf_format_roundtrip.2.2.2.2.2 "abc").mpr (by decide),
   (c9_leaf_format_roundtrip.2.2.2.2.1) (-42)⟩
